import Mathlib

/-!
Verification of the collaborative pixel-canvas server.

This file gives a shallow embedding of the server-side core of the
repository (the socket event handlers of `src/app.js` — the second,
current revision of the file, which adds the join room-check and the
`leave-canvas` handler — together with the legacy `fill` handler and
`floodFillServer` of `src/legacy/app.js`, and the eviction/persistence
sweeps of the first revision of `src/app.js`), and proves or refutes the
frozen specification claims about it.

Modelling conventions:
* JS objects keyed by the pixel-coordinate string `"x,y"` are modelled as
  functions `Int × Int → Option Pixel`; the string key is in bijection
  with the integer pair for the integer coordinates produced by these
  handlers, and `Map`/object mutation is modelled extensionally with
  `Function.update`.
* The brush double loop of the `draw-pixel` handler writes the identical
  record at every affected offset, so its net effect on the pixel map is
  the pointwise update by the offset set `brushOffsets` below.
* The float literals `0.2` / `0.8` in the size ≥ 3 brush branch are
  modelled as the rationals `2/10` / `8/10`; no claim depends on the
  size ≥ 3 branch.
* The `while` loop of `floodFillServer` is modelled with an explicit fuel
  parameter (the loop terminates on every input; all properties proved
  about it are established for every fuel, hence hold for the loop's
  actual result).
* `socket.emit` / `socket.to(room).emit` / `io.emit` are modelled as a
  returned list of `Emit` values tagged with their target.
* The payload of `update-canvas-list` (the list of map keys) is elided,
  since no claim refers to it and an extensional map has no key order.
-/

/-- Author identity taken from the Discord session (`session.passport.user`). -/
structure User where
  id : String
  username : String
deriving DecidableEq, Repr

/-- One stored pixel: `{ color, user, timestamp }` as written by the handlers. -/
structure Pixel where
  color : String
  user : User
  timestamp : Int
deriving DecidableEq, Repr

/-- Sparse pixel map of a canvas: JS object keyed by the string `"x,y"`. -/
def PixelMap : Type := Int × Int → Option Pixel

/-- Canvas object as built by `createCanvas` in `src/app.js`. -/
structure Canvas where
  edited : Bool
  data : PixelMap
  lastAccessed : Int
  viewers : Int

/-- Message sent to clients over the socket. -/
inductive Msg where
  | error (message : String)
  | initCanvas (canvasId : String) (canvasData : PixelMap)
  | updateCanvasList
  | drawPixel (canvasId : String) (x y : Int) (color : String) (size : Int)
  | fill (canvasId : String) (x y : Int) (targetColor newColor : String)

/-- Destination of an emitted message: `socket.emit` (one connection),
`socket.to(room).emit` (room minus sender), `io.to(room).emit` (whole room),
`io.emit` (everyone). -/
inductive Target where
  | conn (i : Nat)
  | roomExcept (canvasId : String) (sender : Nat)
  | roomAll (canvasId : String)
  | all

/-- One emitted socket message together with its destination. -/
structure Emit where
  target : Target
  msg : Msg

/-- Error message sent on every failed authentication check. -/
def unauthorizedMsg : String := "Unauthorized. Please log in with Discord."

/-- Brush rasterization of the `draw-pixel` handler: the double loop over
`dx, dy ∈ [-radius, radius]` with `radius = Math.floor(size / 2)`, keeping
an offset when `size >= 3` and `dx² + dy² ≤ radius² − radius·k`
(`k` is `0.2` in the first revision, `0.8` in the second), or `size == 2`
and `dx == 0 || dy == 0`, or `size == 1 && dx == 0 && dy == 0`. -/
def brushOffsets (k : ℚ) (size : Int) : Finset (Int × Int) :=
  let radius : Int := Int.fdiv size 2
  (Finset.Icc (-radius) radius ×ˢ Finset.Icc (-radius) radius).filter fun d =>
    if 3 ≤ size then
      ((d.1 * d.1 + d.2 * d.2 : Int) : ℚ) ≤ ((radius * radius : Int) : ℚ) - (radius : ℚ) * k
    else if size = 2 then d.1 = 0 ∨ d.2 = 0
    else size = 1 ∧ d.1 = 0 ∧ d.2 = 0

/-- Loop body of `floodFillServer` in `src/legacy/app.js`: pop a coordinate,
skip it when out of the `[0,512)` bounds, when the stored color differs from
`targetColor`, or when it already has `newColor`; otherwise write
`{ color: newColor, user, timestamp }` and push the four neighbours
(in the order `x+1`, `x-1`, `y+1`, `y-1`; the list head is the top of the
stack, so they are consed in reverse). `fuel` bounds the number of
iterations; the JS `while` loop terminates, and every property below is
proved for all fuel values. -/
def floodFillLoop (targetColor newColor : String) (user : User) (timestamp : Int) :
    Nat → PixelMap → List (Int × Int) → PixelMap
  | 0, m, _ => m
  | _ + 1, m, [] => m
  | fuel + 1, m, (x, y) :: stack =>
    if x < 0 ∨ 512 ≤ x ∨ y < 0 ∨ 512 ≤ y then
      floodFillLoop targetColor newColor user timestamp fuel m stack
    else
      match m (x, y) with
      | some px =>
        if px.color ≠ targetColor then
          floodFillLoop targetColor newColor user timestamp fuel m stack
        else if px.color = newColor then
          floodFillLoop targetColor newColor user timestamp fuel m stack
        else
          floodFillLoop targetColor newColor user timestamp fuel
            (Function.update m (x, y) (some ⟨newColor, user, timestamp⟩))
            ((x, y - 1) :: (x, y + 1) :: (x - 1, y) :: (x + 1, y) :: stack)
      | none =>
        floodFillLoop targetColor newColor user timestamp fuel
          (Function.update m (x, y) (some ⟨newColor, user, timestamp⟩))
          ((x, y - 1) :: (x, y + 1) :: (x - 1, y) :: (x + 1, y) :: stack)

/-- Server-side flood fill `floodFillServer(canvasData, x, y, targetColor,
newColor, user, timestamp)`: run the work-stack loop from the origin. -/
def floodFillServer (m : PixelMap) (x y : Int) (targetColor newColor : String)
    (user : User) (timestamp : Int) (fuel : Nat) : PixelMap :=
  floodFillLoop targetColor newColor user timestamp fuel m [(x, y)]

/-- Per-connection state inside the `io.on('connection', …)` closure:
the session's authenticated user (if any), the `currentCanvasId` variable,
and the socket's room memberships (`socket.rooms`, restricted to the
`canvas-…` rooms, keyed here by canvas id). -/
structure Conn where
  authed : Option User
  currentCanvasId : Option String
  rooms : String → Bool

/-- Whole-server state for `n` sockets: the in-memory `canvases` map, the
persistent `canvasEnmap` store, each connection's state, and whether each
socket is still connected (a disconnected socket produces no events and its
`disconnect` handler has already run). -/
structure SysState (n : Nat) where
  canvases : String → Option Canvas
  enmap : String → Option Canvas
  conns : Fin n → Conn
  alive : Fin n → Bool

/-- The fresh canvas object constructed by `createCanvas` when the enmap has
no saved copy. -/
def freshCanvas (now : Int) : Canvas :=
  { edited := false, data := fun _ => none, lastAccessed := now, viewers := 0 }

/-- The `createCanvas(canvasId)` helper of `src/app.js`: return the saved
canvas from the enmap if present, else a new empty canvas. -/
def createCanvas (enmap : String → Option Canvas) (canvasId : String) (now : Int) : Canvas :=
  match enmap canvasId with
  | some saved => saved
  | none => freshCanvas now

/-- Tail of the `join-canvas` handler, entered once `canvas` is resolved
(and, on the creation path, already inserted into the map): return early if
the socket is already in the room; otherwise update `lastAccessed`,
increment `viewers`, join the room, send `init-canvas` to the socket and
`update-canvas-list` to everyone. -/
def joinResident {n : Nat} (s : SysState n) (i : Fin n) (canvasId : String)
    (canvas : Canvas) (now : Int) : SysState n × List Emit :=
  if (s.conns i).rooms canvasId = true then
    (s, [])
  else
    let canvas1 : Canvas := { canvas with lastAccessed := now, viewers := canvas.viewers + 1 }
    let conn := s.conns i
    let conn1 : Conn := { conn with rooms := Function.update conn.rooms canvasId true }
    ({ s with canvases := Function.update s.canvases canvasId (some canvas1),
              conns := Function.update s.conns i conn1 },
     [⟨.conn i.val, .initCanvas canvasId canvas1.data⟩, ⟨.all, .updateCanvasList⟩])

/-- The `join-canvas` handler (second revision of `src/app.js`): set
`currentCanvasId` immediately; if the canvas is not in memory, build it with
`createCanvas` and reject with an `error` when the session is
unauthenticated and the canvas is unedited (before inserting it into the
map); otherwise insert it and continue with `joinResident`. -/
def joinCanvas {n : Nat} (s : SysState n) (i : Fin n) (canvasId : String) (now : Int) :
    SysState n × List Emit :=
  if s.alive i = true then
    let conn := s.conns i
    let conn1 : Conn := { conn with currentCanvasId := some canvasId }
    let s1 : SysState n := { s with conns := Function.update s.conns i conn1 }
    match s.canvases canvasId with
    | none =>
      let canvas := createCanvas s.enmap canvasId now
      if conn.authed = none ∧ canvas.edited = false then
        (s1, [⟨.conn i.val, .error unauthorizedMsg⟩])
      else
        joinResident { s1 with canvases := Function.update s.canvases canvasId (some canvas) }
          i canvasId canvas now
    | some canvas => joinResident s1 i canvasId canvas now
  else (s, [])

/-- The `leave-canvas` handler (second revision of `src/app.js`): null out
`currentCanvasId` unconditionally; then, if the canvas is in memory and the
socket is in its room, decrement `viewers` and leave the room. -/
def leaveCanvas {n : Nat} (s : SysState n) (i : Fin n) (canvasId : String) :
    SysState n × List Emit :=
  if s.alive i = true then
    let conn := s.conns i
    let conn1 : Conn := { conn with currentCanvasId := none }
    let s1 : SysState n := { s with conns := Function.update s.conns i conn1 }
    match s.canvases canvasId with
    | some canvas =>
      if conn.rooms canvasId = true then
        let conn2 : Conn := { conn1 with rooms := Function.update conn.rooms canvasId false }
        ({ s1 with canvases := Function.update s.canvases canvasId
                     (some { canvas with viewers := canvas.viewers - 1 }),
                   conns := Function.update s.conns i conn2 }, [])
      else (s1, [])
    | none => (s1, [])
  else (s, [])

/-- The `disconnect` handler of `src/app.js`: if `currentCanvasId` is set
and that canvas is in memory, decrement its `viewers`; the socket then stops
being connected and socket.io removes it from all rooms. -/
def disconnectConn {n : Nat} (s : SysState n) (i : Fin n) : SysState n × List Emit :=
  if s.alive i = true then
    let conn := s.conns i
    let canvases1 : String → Option Canvas :=
      match conn.currentCanvasId with
      | some canvasId =>
        match s.canvases canvasId with
        | some canvas =>
          Function.update s.canvases canvasId (some { canvas with viewers := canvas.viewers - 1 })
        | none => s.canvases
      | none => s.canvases
    let conn1 : Conn := { conn with rooms := fun _ => false }
    ({ s with canvases := canvases1,
              conns := Function.update s.conns i conn1,
              alive := Function.update s.alive i false }, [])
  else (s, [])

/-- The `draw-pixel` handler (second revision of `src/app.js`): reject with
an `error` when the session is unauthenticated; otherwise resolve (or
create) the canvas, mark it edited, update `lastAccessed`, write the brush
record at every rasterized offset (`brushOffsets` with `k = 0.8`), and
broadcast the draw to the rest of the room. `now` models
`getCurrentTimestamp()` and `ts` models `Date.now()`. -/
def drawPixel {n : Nat} (s : SysState n) (i : Fin n) (canvasId : String) (x y : Int)
    (color : String) (size : Int) (now ts : Int) : SysState n × List Emit :=
  if s.alive i = true then
    match (s.conns i).authed with
    | none => (s, [⟨.conn i.val, .error unauthorizedMsg⟩])
    | some u =>
      let canvas : Canvas :=
        match s.canvases canvasId with
        | some c => c
        | none => createCanvas s.enmap canvasId now
      let user : User := { id := u.id, username := u.username }
      let data1 : PixelMap := fun p =>
        if (p.1 - x, p.2 - y) ∈ brushOffsets (8/10) size then
          some { color := color, user := user, timestamp := ts }
        else canvas.data p
      let canvas1 : Canvas := { canvas with edited := true, lastAccessed := now, data := data1 }
      ({ s with canvases := Function.update s.canvases canvasId (some canvas1) },
       [⟨.roomExcept canvasId i.val, .drawPixel canvasId x y color size⟩])
  else (s, [])

/-- One incoming socket event of the kinds the viewer-count claims range
over (`join-canvas` carries the current timestamp for `lastAccessed`). -/
inductive Event (n : Nat) where
  | join (i : Fin n) (canvasId : String) (now : Int)
  | leave (i : Fin n) (canvasId : String)
  | disconnect (i : Fin n)

/-- State transition of one event (the emitted messages are dropped). -/
def step {n : Nat} (s : SysState n) : Event n → SysState n
  | .join i canvasId now => (joinCanvas s i canvasId now).1
  | .leave i canvasId => (leaveCanvas s i canvasId).1
  | .disconnect i => (disconnectConn s i).1

/-- Run a list of events in order. -/
def runEvents {n : Nat} (s : SysState n) (es : List (Event n)) : SysState n :=
  es.foldl step s

/-- Canvas object of `src/legacy/app.js` (stored in an array, so it carries
its own id). -/
structure LegacyCanvas where
  id : String
  edited : Bool
  data : PixelMap
  lastAccessed : Int
  viewers : Int

/-- Replace the first list element satisfying `p` by its image under `f`
(models mutating the object found by `Array.prototype.find`). -/
def updateFirst {α : Type} (p : α → Bool) (f : α → α) : List α → List α
  | [] => []
  | a :: l => if p a then f a :: l else a :: updateFirst p f l

/-- The `fill` handler of `src/legacy/app.js`: reject with an `error` when
the session is unauthenticated; otherwise find the canvas (rejecting
creation past the 3-canvas cap), mark it edited, run `floodFillServer`, and
emit the fill to the whole room (`io.to`). `sender` is the socket's index,
used only to address its `error`/`fill` messages. -/
def legacyFill (authed : Option User) (canvases : List LegacyCanvas)
    (canvasList : List String) (sender : Nat) (canvasId : String) (x y : Int)
    (targetColor newColor : String) (now ts : Int) (fuel : Nat) :
    (List LegacyCanvas × List String) × List Emit :=
  match authed with
  | none => ((canvases, canvasList), [⟨.conn sender, .error unauthorizedMsg⟩])
  | some u =>
    let user : User := { id := u.id, username := u.username }
    let doFill : LegacyCanvas → LegacyCanvas := fun c =>
      { c with edited := true, lastAccessed := now,
               data := floodFillServer c.data x y targetColor newColor user ts fuel }
    let emits : List Emit := [⟨.roomAll canvasId, .fill canvasId x y targetColor newColor⟩]
    if (canvases.find? (fun c => c.id = canvasId)).isSome then
      ((updateFirst (fun c => c.id = canvasId) doFill canvases, canvasList), emits)
    else if 3 ≤ canvases.length then
      ((canvases, canvasList),
       [⟨.conn sender, .error "Maximum of 3 canvases reached. Cannot create a new one."⟩])
    else
      let fresh : LegacyCanvas :=
        { id := canvasId, edited := false, data := fun _ => none,
          lastAccessed := now, viewers := 0 }
      ((canvases ++ [doFill fresh], canvasList ++ [canvasId]), emits)

/-- The `saveAllCanvases` sweep (first revision of `src/app.js`): every
edited canvas is written to the enmap (the stored copy is the object as it
is at `set` time, still carrying `edited = true`), after which its in-memory
`edited` flag is cleared. Returns the new in-memory map and the new enmap,
both pointwise. -/
def saveAllCanvases (canvases enmap : String → Option Canvas) :
    (String → Option Canvas) × (String → Option Canvas) :=
  (fun canvasId =>
     match canvases canvasId with
     | some c => some (if c.edited = true then { c with edited := false } else c)
     | none => none,
   fun canvasId =>
     match canvases canvasId with
     | some c => if c.edited = true then some c else enmap canvasId
     | none => enmap canvasId)

/-- Viewer count recorded for a canvas id (0 when the canvas is not in
memory). -/
def viewersOf {n : Nat} (s : SysState n) (canvasId : String) : Int :=
  match s.canvases canvasId with
  | some c => c.viewers
  | none => 0

/-- Connections currently subscribed to a canvas: alive and in its room. -/
def subscribers {n : Nat} (s : SysState n) (canvasId : String) : Finset (Fin n) :=
  Finset.univ.filter fun i => s.alive i = true ∧ (s.conns i).rooms canvasId = true

/-- Every canvas's viewer count dominates its number of subscribers (and in
particular a canvas absent from memory has no subscribers). -/
def ViewerBound {n : Nat} (s : SysState n) : Prop :=
  ∀ canvasId, ((subscribers s canvasId).card : Int) ≤ viewersOf s canvasId

/-- An alive connection whose `currentCanvasId` is set is in that room. -/
def RoomsConsistent {n : Nat} (s : SysState n) : Prop :=
  ∀ i canvasId, s.alive i = true → (s.conns i).currentCanvasId = some canvasId →
    (s.conns i).rooms canvasId = true

/-- Saved canvases carry non-negative viewer counts. -/
def EnmapOK {n : Nat} (s : SysState n) : Prop :=
  ∀ canvasId c, s.enmap canvasId = some c → 0 ≤ c.viewers

/-- The subscription invariant of the event system. -/
def SysInv {n : Nat} (s : SysState n) : Prop :=
  ViewerBound s ∧ RoomsConsistent s ∧ EnmapOK s

/-- A `join-canvas` event is rejected (with `error`, after having set
`currentCanvasId`) exactly when the socket is alive, the canvas is not in
memory, the session is unauthenticated, and the created canvas is
unedited. -/
def joinRejected {n : Nat} (s : SysState n) (i : Fin n) (canvasId : String) (now : Int) : Prop :=
  s.alive i = true ∧ s.canvases canvasId = none ∧ (s.conns i).authed = none ∧
    (createCanvas s.enmap canvasId now).edited = false

/-- An event is admissible at a state when it is not a rejected join. -/
def eventOK {n : Nat} (s : SysState n) : Event n → Prop
  | .join i canvasId now => ¬ joinRejected s i canvasId now
  | .leave _ _ => True
  | .disconnect _ => True

/-- Every event of the list is admissible at the state where it fires. -/
def OKEvents {n : Nat} : SysState n → List (Event n) → Prop
  | _, [] => True
  | s, e :: es => eventOK s e ∧ OKEvents (step s e) es

section FilterCountLemmas

variable {n : Nat} (p q : Fin n → Prop) [DecidablePred p] [DecidablePred q]

/-- Counting: a pointwise weaker predicate selects no more elements. -/
lemma card_filter_le_of_imp (h : ∀ j, q j → p j) :
    (Finset.univ.filter q).card ≤ (Finset.univ.filter (α := Fin n) p).card := by
  apply Finset.card_le_card
  intro j hj
  rw [Finset.mem_filter] at hj ⊢
  exact ⟨hj.1, h j hj.2⟩

/-- Counting: weakening the predicate everywhere except at one point adds at
most one element. -/
lemma card_filter_le_succ (i : Fin n) (h : ∀ j, j ≠ i → q j → p j) :
    (Finset.univ.filter q).card ≤ (Finset.univ.filter (α := Fin n) p).card + 1 := by
  have hsub : Finset.univ.filter q ⊆ insert i (Finset.univ.filter p) := by
    intro j hj
    rw [Finset.mem_filter] at hj
    by_cases hji : j = i
    · subst hji
      exact Finset.mem_insert_self j _
    · exact Finset.mem_insert_of_mem (Finset.mem_filter.mpr ⟨hj.1, h j hji hj.2⟩)
  calc (Finset.univ.filter q).card ≤ (insert i (Finset.univ.filter p)).card :=
        Finset.card_le_card hsub
    _ ≤ (Finset.univ.filter p).card + 1 := Finset.card_insert_le i _

/-- Counting: dropping a selected point while not adding any other strictly
decreases the count. -/
lemma card_filter_succ_le (i : Fin n) (hq : ¬ q i) (hp : p i)
    (h : ∀ j, j ≠ i → q j → p j) :
    (Finset.univ.filter q).card + 1 ≤ (Finset.univ.filter (α := Fin n) p).card := by
  have hmem : i ∈ Finset.univ.filter p := Finset.mem_filter.mpr ⟨Finset.mem_univ i, hp⟩
  have hsub : Finset.univ.filter q ⊆ (Finset.univ.filter p).erase i := by
    intro j hj
    rw [Finset.mem_filter] at hj
    have hji : j ≠ i := fun hji => hq (hji ▸ hj.2)
    exact Finset.mem_erase.mpr ⟨hji, Finset.mem_filter.mpr ⟨hj.1, h j hji hj.2⟩⟩
  have h1 : (Finset.univ.filter q).card ≤ ((Finset.univ.filter p).erase i).card :=
    Finset.card_le_card hsub
  have h2 : ((Finset.univ.filter p).erase i).card = (Finset.univ.filter p).card - 1 :=
    Finset.card_erase_of_mem hmem
  have h3 : 1 ≤ (Finset.univ.filter p).card := Finset.card_pos.mpr ⟨i, hmem⟩
  omega

/-- Counting: pointwise equivalent predicates select the same elements. -/
lemma card_filter_congr (h : ∀ j, q j ↔ p j) :
    (Finset.univ.filter q).card = (Finset.univ.filter (α := Fin n) p).card := by
  have : (Finset.univ.filter q) = (Finset.univ.filter (α := Fin n) p) := by
    apply Finset.filter_congr
    intro j _
    exact h j
  rw [this]

end FilterCountLemmas

/-- Preservation of the subscription invariant by the tail of the join
handler, given that the canvas argument is the one stored at `canvasId` and
that the connection's `currentCanvasId` (already set by the handler head)
points at `canvasId`. -/
lemma sysInv_joinResident {n : Nat} (s : SysState n) (i : Fin n) (cid : String)
    (canvas : Canvas) (now : Int)
    (hVB : ViewerBound s)
    (hRC : ∀ j cid2, j ≠ i → s.alive j = true → (s.conns j).currentCanvasId = some cid2 →
      (s.conns j).rooms cid2 = true)
    (hRCi : ∀ cid2, (s.conns i).currentCanvasId = some cid2 → cid2 = cid)
    (hEn : EnmapOK s)
    (hcv : s.canvases cid = some canvas) :
    SysInv (joinResident s i cid canvas now).1 := by
  simp only [joinResident]
  by_cases hroom : (s.conns i).rooms cid = true
  · rw [if_pos hroom]
    refine ⟨hVB, ?_, hEn⟩
    intro j cid2 haj hcj
    by_cases hji : j = i
    · subst hji
      rw [hRCi cid2 hcj]
      exact hroom
    · exact hRC j cid2 hji haj hcj
  · rw [if_neg hroom]
    refine ⟨?_, ?_, hEn⟩
    · intro cid2
      by_cases hc2 : cid2 = cid
      · rw [hc2]
        simp only [viewersOf, subscribers, Function.update_same]
        have hcard : (Finset.univ.filter (fun j => s.alive j = true ∧
            (Function.update s.conns i
              { authed := (s.conns i).authed, currentCanvasId := (s.conns i).currentCanvasId,
                rooms := Function.update (s.conns i).rooms cid true } j).rooms cid = true)).card
            ≤ (Finset.univ.filter
                (fun j => s.alive j = true ∧ (s.conns j).rooms cid = true)).card + 1 :=
          card_filter_le_succ _ _ i (by
            intro j hji hq
            rwa [Function.update_noteq hji] at hq)
        have hv : ((Finset.univ.filter
            (fun j => s.alive j = true ∧ (s.conns j).rooms cid = true)).card : Int)
            ≤ canvas.viewers := by
          simpa [viewersOf, subscribers, hcv] using hVB cid
        omega
      · have hv := hVB cid2
        simp only [viewersOf, subscribers] at hv ⊢
        rw [Function.update_noteq hc2]
        have hcard : (Finset.univ.filter (fun j => s.alive j = true ∧
            (Function.update s.conns i
              { authed := (s.conns i).authed, currentCanvasId := (s.conns i).currentCanvasId,
                rooms := Function.update (s.conns i).rooms cid true } j).rooms cid2 = true)).card
            = (Finset.univ.filter
                (fun j => s.alive j = true ∧ (s.conns j).rooms cid2 = true)).card :=
          card_filter_congr _ _ (by
            intro j
            by_cases hji : j = i
            · subst hji
              simp [Function.update_same, Function.update_noteq hc2]
            · simp [Function.update_noteq hji])
        rw [hcard]
        exact hv
    · intro j cid2 haj hcj
      by_cases hji : j = i
      · subst hji
        simp only [Function.update_same] at hcj ⊢
        rw [hRCi cid2 hcj]
        simp
      · simp only [Function.update_noteq hji] at hcj ⊢
        exact hRC j cid2 hji haj hcj

/-- A `join-canvas` event that is not rejected preserves the subscription
invariant. -/
lemma sysInv_joinCanvas {n : Nat} (s : SysState n) (i : Fin n) (cid : String) (now : Int)
    (hInv : SysInv s) (hOK : ¬ joinRejected s i cid now) :
    SysInv (joinCanvas s i cid now).1 := by
  obtain ⟨hVB, hRC, hEn⟩ := hInv
  simp only [joinCanvas]
  by_cases halive : s.alive i = true
  · rw [if_pos halive]
    cases hcv : s.canvases cid with
    | some canvas =>
      apply sysInv_joinResident
      · intro cid2
        have hv := hVB cid2
        simp only [viewersOf, subscribers] at hv ⊢
        have hcard : (Finset.univ.filter (fun j => s.alive j = true ∧
            (Function.update s.conns i
              { authed := (s.conns i).authed, currentCanvasId := some cid,
                rooms := (s.conns i).rooms } j).rooms cid2 = true)).card
            = (Finset.univ.filter
                (fun j => s.alive j = true ∧ (s.conns j).rooms cid2 = true)).card :=
          card_filter_congr _ _ (by
            intro j
            by_cases hji : j = i
            · subst hji
              simp [Function.update_same]
            · simp [Function.update_noteq hji])
        rw [hcard]
        exact hv
      · intro j cid2 hji haj hcj
        simp only [Function.update_noteq hji] at haj hcj ⊢
        exact hRC j cid2 haj hcj
      · intro cid2 hcj
        simp only [Function.update_same] at hcj
        exact (Option.some_inj.mp hcj).symm
      · exact hEn
      · exact hcv
    | none =>
      have hcond : ¬ ((s.conns i).authed = none ∧ (createCanvas s.enmap cid now).edited = false) := by
        intro hc
        exact hOK ⟨halive, hcv, hc.1, hc.2⟩
      rw [if_neg hcond]
      apply sysInv_joinResident
      · intro cid2
        by_cases hc2 : cid2 = cid
        · rw [hc2]
          simp only [viewersOf, subscribers, Function.update_same]
          have hzero : (Finset.univ.filter
              (fun j => s.alive j = true ∧ (s.conns j).rooms cid = true)).card = 0 := by
            have hv := hVB cid
            simp only [viewersOf, subscribers, hcv] at hv
            omega
          have hcard : (Finset.univ.filter (fun j => s.alive j = true ∧
              (Function.update s.conns i
                { authed := (s.conns i).authed, currentCanvasId := some cid,
                  rooms := (s.conns i).rooms } j).rooms cid = true)).card
              = (Finset.univ.filter
                  (fun j => s.alive j = true ∧ (s.conns j).rooms cid = true)).card :=
            card_filter_congr _ _ (by
              intro j
              by_cases hji : j = i
              · subst hji
                simp [Function.update_same]
              · simp [Function.update_noteq hji])
          rw [hcard, hzero]
          have hviewers : 0 ≤ (createCanvas s.enmap cid now).viewers := by
            simp only [createCanvas]
            cases hsaved : s.enmap cid with
            | some saved => exact hEn cid saved hsaved
            | none => simp [freshCanvas]
          simpa using hviewers
        · have hv := hVB cid2
          simp only [viewersOf, subscribers] at hv ⊢
          rw [Function.update_noteq hc2]
          have hcard : (Finset.univ.filter (fun j => s.alive j = true ∧
              (Function.update s.conns i
                { authed := (s.conns i).authed, currentCanvasId := some cid,
                  rooms := (s.conns i).rooms } j).rooms cid2 = true)).card
              = (Finset.univ.filter
                  (fun j => s.alive j = true ∧ (s.conns j).rooms cid2 = true)).card :=
            card_filter_congr _ _ (by
              intro j
              by_cases hji : j = i
              · subst hji
                simp [Function.update_same]
              · simp [Function.update_noteq hji])
          rw [hcard]
          exact hv
      · intro j cid2 hji haj hcj
        simp only [Function.update_noteq hji] at haj hcj ⊢
        exact hRC j cid2 haj hcj
      · intro cid2 hcj
        simp only [Function.update_same] at hcj
        exact (Option.some_inj.mp hcj).symm
      · exact hEn
      · exact Function.update_same cid (some (createCanvas s.enmap cid now)) s.canvases
  · rw [if_neg halive]
    exact ⟨hVB, hRC, hEn⟩

/-- Changing only the `authed`/`currentCanvasId` fields of one connection
(leaving its rooms, everyone's aliveness and all canvases alone) keeps the
viewer bound. -/
lemma viewerBound_conn_fields {n : Nat} (s : SysState n) (i : Fin n)
    (a : Option User) (oc : Option String) (hVB : ViewerBound s) :
    ViewerBound (SysState.mk s.canvases s.enmap
      (Function.update s.conns i (Conn.mk a oc ((s.conns i).rooms))) s.alive) := by
  intro cid2
  have hv := hVB cid2
  simp only [viewersOf, subscribers] at hv ⊢
  have hcard : (Finset.univ.filter (fun j => s.alive j = true ∧
      (Function.update s.conns i (Conn.mk a oc ((s.conns i).rooms)) j).rooms cid2
        = true)).card
      = (Finset.univ.filter
          (fun j => s.alive j = true ∧ (s.conns j).rooms cid2 = true)).card :=
    card_filter_congr _ _ (by
      intro j
      by_cases hji : j = i
      · subst hji
        simp [Function.update_same]
      · simp [Function.update_noteq hji])
  rw [hcard]
  exact hv

/-- Nulling one connection's `currentCanvasId` (with any rooms function)
keeps the consistency between `currentCanvasId` and room membership. -/
lemma roomsConsistent_null {n : Nat} (s : SysState n) (i : Fin n)
    (a : Option User) (r : String → Bool)
    (cs : String → Option Canvas) (hRC : RoomsConsistent s) :
    RoomsConsistent (SysState.mk cs s.enmap
      (Function.update s.conns i (Conn.mk a none r)) s.alive) := by
  intro j cid2 haj hcj
  by_cases hji : j = i
  · subst hji
    simp [Function.update_same] at hcj
  · simp only [Function.update_noteq hji] at haj hcj ⊢
    exact hRC j cid2 haj hcj

/-- A `leave-canvas` event preserves the subscription invariant. -/
lemma sysInv_leaveCanvas {n : Nat} (s : SysState n) (i : Fin n) (cid : String)
    (hInv : SysInv s) : SysInv (leaveCanvas s i cid).1 := by
  obtain ⟨hVB, hRC, hEn⟩ := hInv
  simp only [leaveCanvas]
  by_cases halive : s.alive i = true
  · rw [if_pos halive]
    cases hcv : s.canvases cid with
    | some canvas =>
      simp only [hcv]
      by_cases hroom : (s.conns i).rooms cid = true
      · rw [if_pos hroom]
        refine ⟨?_, roomsConsistent_null s i _ _ _ hRC, hEn⟩
        intro cid2
        by_cases hc2 : cid2 = cid
        · rw [hc2]
          simp only [viewersOf, subscribers, Function.update_same]
          have hv : ((Finset.univ.filter
              (fun j => s.alive j = true ∧ (s.conns j).rooms cid = true)).card : Int)
              ≤ canvas.viewers := by
            simpa [viewersOf, subscribers, hcv] using hVB cid
          have hcard : (Finset.univ.filter (fun j => s.alive j = true ∧
              (Function.update s.conns i
                (Conn.mk (s.conns i).authed none
                  (Function.update (s.conns i).rooms cid false)) j).rooms
                    cid = true)).card + 1
              ≤ (Finset.univ.filter
                  (fun j => s.alive j = true ∧ (s.conns j).rooms cid = true)).card :=
            card_filter_succ_le _ _ i
              (by
                intro hq
                simp [Function.update_same] at hq)
              ⟨halive, hroom⟩
              (by
                intro j hji hq
                rwa [Function.update_noteq hji] at hq)
          omega
        · have hv := hVB cid2
          simp only [viewersOf, subscribers] at hv ⊢
          rw [Function.update_noteq hc2]
          have hcard : (Finset.univ.filter (fun j => s.alive j = true ∧
              (Function.update s.conns i
                (Conn.mk (s.conns i).authed none
                  (Function.update (s.conns i).rooms cid false)) j).rooms
                    cid2 = true)).card
              = (Finset.univ.filter
                  (fun j => s.alive j = true ∧ (s.conns j).rooms cid2 = true)).card :=
            card_filter_congr _ _ (by
              intro j
              by_cases hji : j = i
              · subst hji
                simp [Function.update_same, Function.update_noteq hc2]
              · simp [Function.update_noteq hji])
          rw [hcard]
          exact hv
      · rw [if_neg hroom]
        exact ⟨viewerBound_conn_fields s i _ _ hVB,
          roomsConsistent_null s i _ _ _ hRC, hEn⟩
    | none =>
      simp only [hcv]
      exact ⟨viewerBound_conn_fields s i _ _ hVB,
        roomsConsistent_null s i _ _ _ hRC, hEn⟩
  · rw [if_neg halive]
    exact ⟨hVB, hRC, hEn⟩

/-- A `disconnect` event preserves the subscription invariant. -/
lemma sysInv_disconnectConn {n : Nat} (s : SysState n) (i : Fin n)
    (hInv : SysInv s) : SysInv (disconnectConn s i).1 := by
  obtain ⟨hVB, hRC, hEn⟩ := hInv
  simp only [disconnectConn]
  by_cases halive : s.alive i = true
  · rw [if_pos halive]
    have hsubs : ∀ (cid3 : String) (oc : Option String),
        (Finset.univ.filter (fun j =>
          Function.update s.alive i false j = true ∧
          (Function.update s.conns i
            (Conn.mk (s.conns i).authed oc (fun _ => false)) j).rooms cid3
              = true)).card
        ≤ (Finset.univ.filter
            (fun j => s.alive j = true ∧ (s.conns j).rooms cid3 = true)).card :=
      fun cid3 oc => card_filter_le_of_imp _ _ (by
        intro j hq
        by_cases hji : j = i
        · subst hji
          simp [Function.update_same] at hq
        · rwa [Function.update_noteq hji, Function.update_noteq hji] at hq)
    have hRCdead : ∀ (cs : String → Option Canvas) (oc : Option String),
        RoomsConsistent (SysState.mk cs s.enmap
          (Function.update s.conns i (Conn.mk (s.conns i).authed oc (fun _ => false)))
          (Function.update s.alive i false)) := by
      intro cs oc j cid2 haj hcj
      by_cases hji : j = i
      · subst hji
        simp [Function.update_same] at haj
      · simp only [Function.update_noteq hji] at haj hcj ⊢
        exact hRC j cid2 haj hcj
    cases hcur : (s.conns i).currentCanvasId with
    | none =>
      simp only [hcur]
      refine ⟨?_, hRCdead _ _, hEn⟩
      intro cid2
      have hv := hVB cid2
      simp only [viewersOf, subscribers] at hv ⊢
      exact le_trans (by exact_mod_cast hsubs cid2 none) hv
    | some cid0 =>
      simp only [hcur]
      cases hc0 : s.canvases cid0 with
      | none =>
        simp only [hc0]
        refine ⟨?_, hRCdead _ _, hEn⟩
        intro cid2
        have hv := hVB cid2
        simp only [viewersOf, subscribers] at hv ⊢
        exact le_trans (by exact_mod_cast hsubs cid2 (some cid0)) hv
      | some c0 =>
        simp only [hc0]
        refine ⟨?_, hRCdead _ _, hEn⟩
        intro cid2
        by_cases hc2 : cid2 = cid0
        · rw [hc2]
          simp only [viewersOf, subscribers, Function.update_same]
          have hroom : (s.conns i).rooms cid0 = true := hRC i cid0 halive hcur
          have hv : ((Finset.univ.filter
              (fun j => s.alive j = true ∧ (s.conns j).rooms cid0 = true)).card : Int)
              ≤ c0.viewers := by
            simpa [viewersOf, subscribers, hc0] using hVB cid0
          have hcard : (Finset.univ.filter (fun j =>
              Function.update s.alive i false j = true ∧
              (Function.update s.conns i
                (Conn.mk (s.conns i).authed (some cid0) (fun _ => false)) j).rooms
                  cid0 = true)).card + 1
              ≤ (Finset.univ.filter
                  (fun j => s.alive j = true ∧ (s.conns j).rooms cid0 = true)).card :=
            card_filter_succ_le _ _ i
              (by
                intro hq
                simp [Function.update_same] at hq)
              ⟨halive, hroom⟩
              (by
                intro j hji hq
                rwa [Function.update_noteq hji, Function.update_noteq hji] at hq)
          omega
        · have hv := hVB cid2
          simp only [viewersOf, subscribers] at hv ⊢
          rw [Function.update_noteq hc2]
          exact le_trans (by exact_mod_cast hsubs cid2 (some cid0)) hv
  · rw [if_neg halive]
    exact ⟨hVB, hRC, hEn⟩

/-- Any admissible event preserves the subscription invariant. -/
lemma sysInv_step {n : Nat} (s : SysState n) (e : Event n)
    (hInv : SysInv s) (hOK : eventOK s e) : SysInv (step s e) := by
  cases e with
  | join i cid now => exact sysInv_joinCanvas s i cid now hInv hOK
  | leave i cid => exact sysInv_leaveCanvas s i cid hInv
  | disconnect i => exact sysInv_disconnectConn s i hInv

/-- Any admissible event sequence preserves the subscription invariant. -/
lemma sysInv_runEvents {n : Nat} (es : List (Event n)) (s : SysState n)
    (hInv : SysInv s) (hOK : OKEvents s es) : SysInv (runEvents s es) := by
  induction es generalizing s with
  | nil => exact hInv
  | cons e es ih =>
    exact ih (step s e) (sysInv_step s e hInv hOK.1) hOK.2

/-- An exhausted or empty work stack leaves the map unchanged. -/
lemma floodFillLoop_nil (targetColor newColor : String) (user : User) (timestamp : Int)
    (fuel : Nat) (m : PixelMap) :
    floodFillLoop targetColor newColor user timestamp fuel m [] = m := by
  cases fuel <;> rfl

/-- The flood-fill loop never changes the map at a coordinate outside the
`[0,512) × [0,512)` bounds: every write is guarded by the bounds check. -/
lemma floodFillLoop_oob (targetColor newColor : String) (user : User) (timestamp : Int)
    (fuel : Nat) :
    ∀ (m : PixelMap) (stack : List (Int × Int)) (p : Int × Int),
      p.1 < 0 ∨ 512 ≤ p.1 ∨ p.2 < 0 ∨ 512 ≤ p.2 →
      floodFillLoop targetColor newColor user timestamp fuel m stack p = m p := by
  induction fuel with
  | zero =>
    intro m stack p _
    rfl
  | succ f ih =>
    intro m stack p hp
    cases stack with
    | nil => rfl
    | cons q rest =>
      obtain ⟨x, y⟩ := q
      by_cases hb : x < 0 ∨ 512 ≤ x ∨ y < 0 ∨ 512 ≤ y
      · rw [floodFillLoop, if_pos hb]
        exact ih m rest p hp
      · have hpx : p ≠ (x, y) := by
          intro hpe
          rw [hpe] at hp
          simp only at hp
          omega
        rw [floodFillLoop, if_neg hb]
        cases hm : m (x, y) with
        | some px =>
          simp only []
          by_cases hpt : px.color ≠ targetColor
          · rw [if_pos hpt]
            exact ih m rest p hp
          · rw [if_neg hpt]
            by_cases hpn : px.color = newColor
            · rw [if_pos hpn]
              exact ih m rest p hp
            · rw [if_neg hpn]
              rw [ih _ _ p hp]
              exact Function.update_noteq hpx _ m
        | none =>
          simp only []
          rw [ih _ _ p hp]
          exact Function.update_noteq hpx _ m

/-- When the origin pixel is present and its color differs (by exact string
comparison) from `targetColor`, the fill is a complete no-op. -/
lemma floodFillServer_blocked (m : PixelMap) (x y : Int)
    (targetColor newColor : String) (user : User) (timestamp : Int) (fuel : Nat)
    (px : Pixel) (hm : m (x, y) = some px) (hpt : px.color ≠ targetColor) :
    floodFillServer m x y targetColor newColor user timestamp fuel = m := by
  cases fuel with
  | zero => rfl
  | succ f =>
    rw [floodFillServer, floodFillLoop]
    by_cases hb : x < 0 ∨ 512 ≤ x ∨ y < 0 ∨ 512 ≤ y
    · rw [if_pos hb]
      exact floodFillLoop_nil _ _ _ _ _ _
    · rw [if_neg hb, hm]
      simp only []
      rw [if_pos hpt]
      exact floodFillLoop_nil _ _ _ _ _ _

/-- Every brush offset is bounded by the radius `⌊size/2⌋` on both axes
(it is drawn from the loop ranges). -/
lemma brushOffsets_bounded (k : ℚ) (size : Int) (d : Int × Int)
    (hd : d ∈ brushOffsets k size) :
    -(Int.fdiv size 2) ≤ d.1 ∧ d.1 ≤ Int.fdiv size 2 ∧
    -(Int.fdiv size 2) ≤ d.2 ∧ d.2 ≤ Int.fdiv size 2 := by
  simp only [brushOffsets, Finset.mem_filter, Finset.mem_product, Finset.mem_Icc] at hd
  exact ⟨hd.1.1.1, hd.1.1.2, hd.1.2.1, hd.1.2.2⟩

/-- An unauthenticated `draw-pixel` is rejected with an `error` and leaves
the whole server state untouched. -/
lemma drawPixel_unauthed {n : Nat} (s : SysState n) (i : Fin n) (canvasId : String)
    (x y : Int) (color : String) (size : Int) (now ts : Int)
    (halive : s.alive i = true) (hauth : (s.conns i).authed = none) :
    drawPixel s i canvasId x y color size now ts
      = (s, [⟨.conn i.val, .error unauthorizedMsg⟩]) := by
  rw [drawPixel, if_pos halive, hauth]

/-- The `cleanupInactiveCanvases` sweep (first revision of `src/app.js`,
expiration 3600 seconds): every in-memory canvas whose `lastAccessed` is
older than the expiration is deleted from the in-memory map AND from the
enmap. Returns the new in-memory map and the new enmap, both pointwise. -/
def cleanupInactiveCanvases (now : Int) (canvases enmap : String → Option Canvas) :
    (String → Option Canvas) × (String → Option Canvas) :=
  (fun canvasId =>
     match canvases canvasId with
     | some c => if now - c.lastAccessed > 3600 then none else some c
     | none => none,
   fun canvasId =>
     match canvases canvasId with
     | some c => if now - c.lastAccessed > 3600 then none else enmap canvasId
     | none => enmap canvasId)

/-- Example author used in concrete executions. -/
def uEx : User := { id := "100", username := "alice" }

/-- The empty pixel map. -/
def emptyMap : PixelMap := fun _ => none

/-- A connection with no authenticated session that has joined nothing. -/
def connUnauth : Conn := { authed := none, currentCanvasId := none, rooms := fun _ => false }

/-- An authenticated connection that has joined nothing. -/
def connAuth : Conn := { authed := some uEx, currentCanvasId := none, rooms := fun _ => false }

/-- An authenticated connection subscribed to canvas `"0|0"`. -/
def connJoined : Conn :=
  { authed := some uEx, currentCanvasId := some "0|0", rooms := fun canvasId => canvasId == "0|0" }

/-- Canvas `"0|0"` as held in memory with one viewer in the examples. -/
def canvasJoined : Canvas := { edited := true, data := emptyMap, lastAccessed := 0, viewers := 1 }

/-- One unauthenticated connection, nothing in memory or on disk. -/
def sUnauth : SysState 1 :=
  { canvases := fun _ => none, enmap := fun _ => none,
    conns := fun _ => connUnauth, alive := fun _ => true }

/-- One authenticated connection (not yet subscribed), canvas `"0|0"` in
memory. -/
def sAuth : SysState 1 :=
  { canvases := fun canvasId => if canvasId = "0|0" then some canvasJoined else none,
    enmap := fun _ => none, conns := fun _ => connAuth, alive := fun _ => true }

/-- One authenticated connection subscribed to the in-memory canvas
`"0|0"`. -/
def sJoined : SysState 1 :=
  { canvases := fun canvasId => if canvasId = "0|0" then some canvasJoined else none,
    enmap := fun _ => none, conns := fun _ => connJoined, alive := fun _ => true }

/-- Three sockets: 0 and 2 unauthenticated, 1 authenticated; empty stores. -/
def sMixed : SysState 3 :=
  { canvases := fun _ => none, enmap := fun _ => none,
    conns := fun i => if i.val = 1 then connAuth else connUnauth,
    alive := fun _ => true }

/-- Rejected joins by sockets 0 and 2, a successful join by socket 1, then
disconnects of sockets 0 and 2. -/
def badEvents : List (Event 3) :=
  [.join 0 "0|0" 0, .join 2 "0|0" 0, .join 1 "0|0" 0, .disconnect 0, .disconnect 2]

/-- Map holding one lowercase-red pixel at the origin. -/
def mLower : PixelMap :=
  Function.update emptyMap (0, 0) (some { color := "#ff0000", user := uEx, timestamp := 0 })

/-- A dirty canvas with three viewers and a stale `lastAccessed`. -/
def canvasDirty : Canvas := { edited := true, data := emptyMap, lastAccessed := 0, viewers := 3 }

/-- In-memory map (and persistent store) holding only the dirty canvas. -/
def canvasesC9 : String → Option Canvas :=
  Function.update (fun _ => none) "0|0" (some canvasDirty)



/-! Claim theorems. -/

/-- C1: every `draw` (current server) or `fill` (legacy server) operation
from a connection whose session is not authenticated makes the server emit
an `error` to that connection and leaves the state — in particular the
target tile's pixel map — completely unchanged, regardless of whether the
tile already contains pixel data. -/
theorem claim1_unauth_edit_rejected :
    (∀ (n : Nat) (s : SysState n) (i : Fin n) (canvasId : String) (x y : Int)
      (color : String) (size : Int) (now ts : Int),
      s.alive i = true → (s.conns i).authed = none →
      drawPixel s i canvasId x y color size now ts
        = (s, [⟨.conn i.val, .error unauthorizedMsg⟩])) ∧
    (∀ (canvases : List LegacyCanvas) (canvasList : List String) (sender : Nat)
      (canvasId : String) (x y : Int) (targetColor newColor : String)
      (now ts : Int) (fuel : Nat),
      legacyFill none canvases canvasList sender canvasId x y targetColor newColor now ts fuel
        = ((canvases, canvasList), [⟨.conn sender, .error unauthorizedMsg⟩])) :=
  ⟨fun _ s i canvasId x y color size now ts h1 h2 =>
    drawPixel_unauthed s i canvasId x y color size now ts h1 h2,
   fun _ _ _ _ _ _ _ _ _ _ _ => rfl⟩

/-- Witness for C1: a concrete unauthenticated draw and fill, each answered
by exactly one `error` with the state returned untouched. -/
theorem claim1_unauth_edit_rejected_witness :
    drawPixel sUnauth 0 "0|0" 1 2 "#ff0000" 1 5 6
      = (sUnauth, [⟨.conn 0, .error unauthorizedMsg⟩]) ∧
    legacyFill none [] [] 0 "0|0" 3 4 "#ffffff" "#000000" 5 6 9
      = (([], []), [⟨.conn 0, .error unauthorizedMsg⟩]) :=
  ⟨claim1_unauth_edit_rejected.1 1 sUnauth 0 "0|0" 1 2 "#ff0000" 1 5 6 rfl rfl,
   claim1_unauth_edit_rejected.2 [] [] 0 "0|0" 3 4 "#ffffff" "#000000" 5 6 9⟩

/-- C4: the server flood fill never changes the map at a coordinate outside
`[0,512) × [0,512)`, whatever the origin, colors or starting state: every
write is bounds-checked first (and since the fill only touches the single
tile's map, it never writes into a neighboring tile's map). -/
theorem claim4_fill_in_bounds (m : PixelMap) (x y : Int) (targetColor newColor : String)
    (user : User) (timestamp : Int) (fuel : Nat) (p : Int × Int)
    (hp : p.1 < 0 ∨ 512 ≤ p.1 ∨ p.2 < 0 ∨ 512 ≤ p.2) :
    floodFillServer m x y targetColor newColor user timestamp fuel p = m p :=
  floodFillLoop_oob targetColor newColor user timestamp fuel m [(x, y)] p hp

/-- Witness for C4: a fill launched at the out-of-bounds origin `(600, 5)`
leaves the empty map empty there. -/
theorem claim4_fill_in_bounds_witness :
    (((600 : Int), (5 : Int)).1 < 0 ∨ 512 ≤ ((600 : Int), (5 : Int)).1 ∨
      ((600 : Int), (5 : Int)).2 < 0 ∨ 512 ≤ ((600 : Int), (5 : Int)).2) ∧
    floodFillServer emptyMap 600 5 "#ffffff" "#000000" uEx 3 4 (600, 5) = none :=
  ⟨by decide,
   claim4_fill_in_bounds emptyMap 600 5 "#ffffff" "#000000" uEx 3 4 (600, 5) (by decide)⟩

/-- Counterexample to C5: the stored pixel `"#ff0000"` differs from the
`targetColor` `"#FF0000"` only in letter case, yet the fill leaves it
untouched (it is not filled with `newColor`). -/
theorem claim5_cex :
    floodFillServer mLower 0 0 "#FF0000" "#0000ff" uEx 1 9 (0, 0)
      = some { color := "#ff0000", user := uEx, timestamp := 0 } := by
  decide

/-- C5 amended: the server flood fill matches `targetColor` by exact
(case-sensitive) string equality; a stored pixel whose color differs from
`targetColor` — for instance only in letter case — is treated as
non-matching, so a fill whose origin pixel mismatches is a complete
no-op. -/
theorem claim5_amended (m : PixelMap) (x y : Int) (targetColor newColor : String)
    (user : User) (timestamp : Int) (fuel : Nat) (px : Pixel)
    (hm : m (x, y) = some px) (hne : px.color ≠ targetColor) :
    floodFillServer m x y targetColor newColor user timestamp fuel = m :=
  floodFillServer_blocked m x y targetColor newColor user timestamp fuel px hm hne

/-- Witness for C5 (amended): the concrete case-mismatching fill of the
counterexample leaves the whole map unchanged. -/
theorem claim5_amended_witness :
    mLower (0, 0) = some { color := "#ff0000", user := uEx, timestamp := 0 } ∧
    floodFillServer mLower 0 0 "#FF0000" "#0000ff" uEx 1 9 = mLower :=
  ⟨by decide,
   claim5_amended mLower 0 0 "#FF0000" "#0000ff" uEx 1 9
     { color := "#ff0000", user := uEx, timestamp := 0 } (by decide) (by decide)⟩

/-- Counterexample to C9: a canvas that is dirty (`edited = true`) and has
three viewers is nevertheless removed from memory by the eviction sweep once
stale — and its persistent copy is deleted as well, discarding the
unpersisted edits. -/
theorem claim9_cex :
    (cleanupInactiveCanvases 4000 canvasesC9 canvasesC9).1 "0|0" = none ∧
    (cleanupInactiveCanvases 4000 canvasesC9 canvasesC9).2 "0|0" = none ∧
    canvasDirty.edited = true ∧ canvasDirty.viewers = 3 := by
  refine ⟨rfl, rfl, rfl, rfl⟩

/-- C9 amended: the eviction sweep removes a tile from memory exactly when
`now − lastAccessed > 3600`, regardless of its dirty/edited flag and viewer
count, without flushing it first — and it simultaneously deletes the tile's
persistent copy, so unpersisted (and even persisted) edits are discarded. -/
theorem claim9_amended (now : Int) (canvases enmap : String → Option Canvas)
    (canvasId : String) (c : Canvas) (hcv : canvases canvasId = some c) :
    (now - c.lastAccessed > 3600 →
      (cleanupInactiveCanvases now canvases enmap).1 canvasId = none ∧
      (cleanupInactiveCanvases now canvases enmap).2 canvasId = none) ∧
    (¬ now - c.lastAccessed > 3600 →
      (cleanupInactiveCanvases now canvases enmap).1 canvasId = some c ∧
      (cleanupInactiveCanvases now canvases enmap).2 canvasId = enmap canvasId) := by
  constructor <;> intro h <;>
    simp [cleanupInactiveCanvases, hcv, h]

/-- Witness for C9 (amended): the sweep at time 4000 on the stale dirty
canvas, instantiating the amended characterization. -/
theorem claim9_amended_witness :
    ((4000 : Int) - canvasDirty.lastAccessed > 3600 →
      (cleanupInactiveCanvases 4000 canvasesC9 canvasesC9).1 "0|0" = none ∧
      (cleanupInactiveCanvases 4000 canvasesC9 canvasesC9).2 "0|0" = none) ∧
    (¬ (4000 : Int) - canvasDirty.lastAccessed > 3600 →
      (cleanupInactiveCanvases 4000 canvasesC9 canvasesC9).1 "0|0" = some canvasDirty ∧
      (cleanupInactiveCanvases 4000 canvasesC9 canvasesC9).2 "0|0" = canvasesC9 "0|0") :=
  claim9_amended 4000 canvasesC9 canvasesC9 "0|0" canvasDirty rfl

/-- Counterexample to C2: an unauthenticated client joining the empty
(nonexistent) tile `"0|0"` does not receive an `init-canvas` snapshot; it
receives exactly one `error`, and the tile is not even created. -/
theorem claim2_cex :
    (joinCanvas sUnauth 0 "0|0" 0).2 = [⟨.conn 0, .error unauthorizedMsg⟩] ∧
    (joinCanvas sUnauth 0 "0|0" 0).1.canvases "0|0" = none := by
  refine ⟨rfl, rfl⟩

/-- C2 amended: when an unauthenticated client joins an empty (nonexistent)
tile, the join is rejected: the client receives exactly one `error` (no
`init-canvas`), the tile is not created, and a subsequent draw attempt from
that client again yields exactly one `error` while the tile still does not
exist, so its pixel map remains empty. -/
theorem claim2_amended (n : Nat) (s : SysState n) (i : Fin n) (canvasId : String)
    (now x y : Int) (color : String) (size : Int) (now2 ts : Int)
    (halive : s.alive i = true) (hauth : (s.conns i).authed = none)
    (hcv : s.canvases canvasId = none) (hen : s.enmap canvasId = none) :
    (joinCanvas s i canvasId now).2 = [⟨.conn i.val, .error unauthorizedMsg⟩] ∧
    (joinCanvas s i canvasId now).1.canvases canvasId = none ∧
    (drawPixel (joinCanvas s i canvasId now).1 i canvasId x y color size now2 ts).2
      = [⟨.conn i.val, .error unauthorizedMsg⟩] ∧
    (drawPixel (joinCanvas s i canvasId now).1 i canvasId x y color size now2 ts).1.canvases
      canvasId = none := by
  have hred : joinCanvas s i canvasId now
      = (SysState.mk s.canvases s.enmap
          (Function.update s.conns i
            (Conn.mk (s.conns i).authed (some canvasId) (s.conns i).rooms)) s.alive,
         [⟨.conn i.val, .error unauthorizedMsg⟩]) := by
    rw [joinCanvas, if_pos halive]
    simp only [hcv, createCanvas, hen]
    rw [if_pos ⟨hauth, rfl⟩]
  rw [hred]
  have hdraw := drawPixel_unauthed
    (SysState.mk s.canvases s.enmap
      (Function.update s.conns i
        (Conn.mk (s.conns i).authed (some canvasId) (s.conns i).rooms)) s.alive)
    i canvasId x y color size now2 ts halive
    (by
      simp only [Function.update_same]
      exact hauth)
  rw [hdraw]
  exact ⟨rfl, hcv, rfl, hcv⟩

/-- Witness for C2 (amended): the rejected unauthenticated join of `"0|0"`
on the empty store followed by a rejected draw. -/
theorem claim2_amended_witness :
    (joinCanvas sUnauth 0 "0|0" 0).2 = [⟨.conn 0, .error unauthorizedMsg⟩] ∧
    (joinCanvas sUnauth 0 "0|0" 0).1.canvases "0|0" = none ∧
    (drawPixel (joinCanvas sUnauth 0 "0|0" 0).1 0 "0|0" 10 10 "#ff0000" 1 1 2).2
      = [⟨.conn 0, .error unauthorizedMsg⟩] ∧
    (drawPixel (joinCanvas sUnauth 0 "0|0" 0).1 0 "0|0" 10 10 "#ff0000" 1 1 2).1.canvases
      "0|0" = none :=
  claim2_amended 1 sUnauth 0 "0|0" 0 10 10 "#ff0000" 1 1 2 rfl rfl rfl rfl

/-- Counterexample to C3: an authenticated size-2 draw centered at the tile
origin `(0, 0)` writes the negative-coordinate key `(-1, 0)` into the tile's
pixel map — nothing clamps or ignores the out-of-range offsets. -/
theorem claim3_cex :
    ((drawPixel sAuth 0 "0|0" 0 0 "#00ff00" 2 7 8).1.canvases "0|0").map
        (fun c => c.data (-1, 0))
      = some (some { color := "#00ff00", user := uEx, timestamp := 8 }) := by
  decide

/-- C3 amended: every key written by a draw lies within `⌊size/2⌋` of the
stroke origin on both axes (a position whose offset from the origin is not a
rasterized brush offset keeps its stored value), but the server performs no
clamping to `[0,512)`: near a tile edge the written keys can fall outside
the tile bounds — including negative coordinates — and are stored in the
tile's pixel map regardless (see the counterexample). -/
theorem claim3_amended :
    (∀ (k : ℚ) (size : Int) (d : Int × Int), d ∈ brushOffsets k size →
      -(Int.fdiv size 2) ≤ d.1 ∧ d.1 ≤ Int.fdiv size 2 ∧
      -(Int.fdiv size 2) ≤ d.2 ∧ d.2 ≤ Int.fdiv size 2) ∧
    (∀ (n : Nat) (s : SysState n) (i : Fin n) (canvasId : String) (x y : Int)
      (color : String) (size : Int) (now ts : Int) (u : User) (c : Canvas) (p : Int × Int),
      s.alive i = true → (s.conns i).authed = some u →
      s.canvases canvasId = some c →
      (p.1 - x, p.2 - y) ∉ brushOffsets (8/10) size →
      ((drawPixel s i canvasId x y color size now ts).1.canvases canvasId).map
          (fun cc => cc.data p) = some (c.data p)) := by
  constructor
  · exact fun k size d hd => brushOffsets_bounded k size d hd
  · intro n s i canvasId x y color size now ts u c p halive hauth hcv hmem
    rw [drawPixel, if_pos halive]
    simp only [hauth, hcv, Function.update_same]
    simp [hmem]

/-- Witness for C3 (amended): offset `(0, 1)` of the size-2 brush is within
radius 1 of the origin, and a concrete authenticated size-2 draw leaves the
position `(5, 5)` (offset outside the brush) unchanged. -/
theorem claim3_amended_witness :
    (-(Int.fdiv 2 2) ≤ ((0 : Int), (1 : Int)).1 ∧ ((0 : Int), (1 : Int)).1 ≤ Int.fdiv 2 2 ∧
      -(Int.fdiv 2 2) ≤ ((0 : Int), (1 : Int)).2 ∧ ((0 : Int), (1 : Int)).2 ≤ Int.fdiv 2 2) ∧
    ((drawPixel sAuth 0 "0|0" 0 0 "#00ff00" 2 7 8).1.canvases "0|0").map
        (fun cc => cc.data (5, 5)) = some none :=
  ⟨claim3_amended.1 (8/10) 2 (0, 1) (by decide),
   claim3_amended.2 1 sAuth 0 "0|0" 0 0 "#00ff00" 2 7 8 uEx canvasJoined (5, 5)
     rfl rfl rfl (by decide)⟩

/-- C6: `join` is idempotent — when a connection that is already subscribed
to an in-memory tile sends another join for the same tile, no canvas is
changed (in particular the tile's viewer count is not incremented again) and
nothing is emitted (the `init-canvas` snapshot is not re-sent). -/
theorem claim6_join_idempotent (n : Nat) (s : SysState n) (i : Fin n)
    (canvasId : String) (now : Int) (c : Canvas)
    (halive : s.alive i = true) (hroom : (s.conns i).rooms canvasId = true)
    (hcv : s.canvases canvasId = some c) :
    (joinCanvas s i canvasId now).1.canvases = s.canvases ∧
    (joinCanvas s i canvasId now).2 = [] := by
  rw [joinCanvas, if_pos halive]
  simp only [hcv, joinResident, Function.update_same]
  rw [if_pos hroom]
  exact ⟨rfl, rfl⟩

/-- Witness for C6: a re-join of `"0|0"` by its already-subscribed viewer
changes no canvas and emits nothing. -/
theorem claim6_join_idempotent_witness :
    (joinCanvas sJoined 0 "0|0" 9).1.canvases = sJoined.canvases ∧
    (joinCanvas sJoined 0 "0|0" 9).2 = [] :=
  claim6_join_idempotent 1 sJoined 0 "0|0" 9 canvasJoined rfl rfl rfl

/-- C8: for a connection subscribed to a tile that is in memory, an explicit
`leave` for that tile followed by the socket's disconnect decrements the
tile's viewer count exactly once in total: the leave decrements it and the
disconnect (whose `currentCanvasId` was nulled by the leave) does not
decrement it again. -/
theorem claim8_leave_then_disconnect (n : Nat) (s : SysState n) (i : Fin n)
    (canvasId : String) (c : Canvas)
    (halive : s.alive i = true) (hroom : (s.conns i).rooms canvasId = true)
    (hcv : s.canvases canvasId = some c) :
    (disconnectConn (leaveCanvas s i canvasId).1 i).1.canvases canvasId
      = some { c with viewers := c.viewers - 1 } := by
  have hleave : (leaveCanvas s i canvasId).1
      = SysState.mk
          (Function.update s.canvases canvasId (some { c with viewers := c.viewers - 1 }))
          s.enmap
          (Function.update s.conns i
            (Conn.mk (s.conns i).authed none
              (Function.update (s.conns i).rooms canvasId false)))
          s.alive := by
    rw [leaveCanvas, if_pos halive]
    simp only [hcv]
    rw [if_pos hroom]
  rw [hleave, disconnectConn, if_pos halive]
  simp only [Function.update_same]

/-- Witness for C8: the subscribed viewer of `"0|0"` leaves and then
disconnects; the viewer count drops from 1 to 0, once. -/
theorem claim8_leave_then_disconnect_witness :
    (disconnectConn (leaveCanvas sJoined 0 "0|0").1 0).1.canvases "0|0"
      = some { edited := true, data := emptyMap, lastAccessed := 0, viewers := 0 } :=
  claim8_leave_then_disconnect 1 sJoined 0 "0|0" canvasJoined rfl rfl rfl

/-- C7: the brush rasterization yields exactly the single offset `(0,0)` for
size 1 and exactly the 5-cell plus shape for size 2, for either
edge-tightening constant (the constant only affects sizes ≥ 3). -/
theorem claim7_brush_small_sizes (k : ℚ) :
    brushOffsets k 1 = {((0 : Int), (0 : Int))} ∧
    brushOffsets k 2 = {((0 : Int), (0 : Int)), (1, 0), (-1, 0), (0, 1), (0, -1)} := by
  constructor
  · ext d
    obtain ⟨a, b⟩ := d
    simp only [brushOffsets, show Int.fdiv 1 2 = 0 from rfl, Finset.mem_filter,
      Finset.mem_product, Finset.mem_Icc, Finset.mem_singleton, Prod.mk.injEq]
    norm_num
    omega
  · ext d
    obtain ⟨a, b⟩ := d
    simp only [brushOffsets, show Int.fdiv 2 2 = 1 from rfl, Finset.mem_filter,
      Finset.mem_product, Finset.mem_Icc, Finset.mem_insert, Finset.mem_singleton,
      Prod.mk.injEq]
    norm_num
    omega

/-- Counterexample to C10: after two unauthenticated joins of the missing
tile `"0|0"` (each rejected with an `error`, yet each recording the tile as
the socket's `currentCanvasId`), one successful authenticated join, and the
disconnect of the two rejected sockets, the tile's viewer count is `-1`. -/
theorem claim10_cex :
    ((runEvents sMixed badEvents).canvases "0|0").map (fun c => c.viewers)
      = some (-1) := by
  decide

/-- C10 amended: every tile's viewer count stays non-negative after any
sequence of join-canvas, leave-canvas and disconnect events, provided the
starting state satisfies the subscription invariant and no join in the
sequence is rejected for authorization. (A rejected join still records the
tile as the connection's `currentCanvasId` without subscribing it, so a
later disconnect decrements a count that was never incremented — see the
counterexample.) -/
theorem claim10_amended (n : Nat) (s : SysState n) (es : List (Event n))
    (hInv : SysInv s) (hOK : OKEvents s es) (canvasId : String) :
    0 ≤ viewersOf (runEvents s es) canvasId := by
  have h := (sysInv_runEvents es s hInv hOK).1 canvasId
  exact le_trans (Int.natCast_nonneg _) h

/-- Witness for C10 (amended): one authenticated (hence accepted) join of
`"0|0"` from the invariant-satisfying state leaves the count
non-negative. -/
theorem claim10_amended_witness :
    0 ≤ viewersOf (runEvents sAuth [Event.join 0 "0|0" 5]) "0|0" := by
  refine claim10_amended 1 sAuth [Event.join 0 "0|0" 5] ⟨?_, ?_, ?_⟩ ⟨?_, trivial⟩ "0|0"
  · intro canvasId
    have hempty : (Finset.univ.filter
        (fun j : Fin 1 => sAuth.alive j = true ∧ (sAuth.conns j).rooms canvasId = true)) = ∅ := by
      ext j
      simp [sAuth, connAuth]
    simp only [subscribers, viewersOf, hempty, Finset.card_empty]
    cases hc : sAuth.canvases canvasId with
    | none => simp
    | some c =>
      simp only [Nat.cast_zero]
      simp only [sAuth] at hc
      by_cases h0 : canvasId = "0|0"
      · rw [if_pos h0] at hc
        cases hc
        decide
      · rw [if_neg h0] at hc
        cases hc
  · intro j canvasId haj hcj
    simp [sAuth, connAuth] at hcj
  · intro canvasId c h
    simp [sAuth] at h
  · intro hrej
    have h := hrej.2.2.1
    simp [sAuth, connAuth] at h
